import Mathlib

/-!
# gstVideo: frame pool, capture handshake and RGBA staging pool

A shallow embedding of `util/video/gstVideo.cpp` (class `gstVideo`, declared in
`util/video/gstVideo.h`).

Conventions of the embedding.

* Pointers are natural numbers and `0` is `NULL`.
* The three pointer arrays of the class (`mRingBufferCPU`, `mRingBufferGPU`, `mRGBA`) are
  functions from the slot number to the pointer stored there.
* `uint32_t` arithmetic is arithmetic on `Nat` reduced modulo `2 ^ 32` where the source can wrap;
  `int` values are `Int`.
* Every member function is a pure function from the object state and the outcome of the external
  calls it makes (GStreamer, CUDA, the Qt wait condition) to the new object state, the returned
  value, the values stored through its output parameters, and the list of external calls with a
  side effect, in program order.
* The host bytes of a frame pool slot are tracked in `heap`, keyed by the host pointer.  A slot is
  zero-copy mapped memory, so the device pointer of the slot names the same bytes.
-/

namespace GstVideo

/-- Machine addresses; the address `0` is `NULL`. -/
abbrev Ptr := Nat

/-- Constant `NUM_RINGBUFFERS` of `gstVideo.h`. -/
def NUM_RINGBUFFERS : Nat := 16

/-- Number of values of a `uint32_t`. -/
def UINT32_RANGE : Nat := 2 ^ 32

/-- Value of `sizeof(float4)`: four 32-bit floats. -/
def SIZEOF_FLOAT4 : Nat := 16

/-- External calls with a side effect, as they appear in the source. -/
inductive Event where
  /-- Call `cudaMalloc(&mRGBA[slot], size)`. -/
  | cudaMalloc (slot size : Nat)
  /-- Call `cudaAllocMapped(&mRingBufferCPU[slot], &mRingBufferGPU[slot], size)`. -/
  | cudaAllocMapped (slot size : Nat)
  /-- Call `cudaNV12ToRGBAf(input, dest, width, height)`. -/
  | cudaNV12ToRGBAf (input dest : Ptr) (width height : Nat)
  /-- Call `cudaRGBToRGBAf(input, dest, width, height)`. -/
  | cudaRGBToRGBAf (input dest : Ptr) (width height : Nat)
  /-- Call `memcpy(dest, gstData, gstSize)`, with the bytes that are copied. -/
  | memcpy (dest : Ptr) (bytes : List Nat)
  /-- Call `gst_buffer_unmap(gstBuffer, &map)`. -/
  | gst_buffer_unmap
  /-- Call `gst_sample_unref(gstSample)`. -/
  | gst_sample_unref
  deriving DecidableEq

/-- Array store `a[n] = p`. -/
def setSlot (a : Nat → Ptr) (n : Nat) (p : Ptr) : Nat → Ptr :=
  fun i => if i = n then p else a i

/-- Memory store: the buffer at address `dest` now holds `bytes`. -/
def store (heap : Ptr → List Nat) (dest : Ptr) (bytes : List Nat) : Ptr → List Nat :=
  fun a => if a = dest then bytes else heap a

/-- Data members of class `gstVideo` that the modelled member functions read or write.
`mBus`, `mPipeline`, `mLaunchStr` and the three synchronisation objects carry no data of their
own here: the outcome of the wait is an input of `Capture`.  `heap` is the host memory behind
the frame pool. -/
structure gstVideo where
  mAppSink : Ptr
  mWidth : Nat
  mHeight : Nat
  mDepth : Nat
  mSize : Nat
  mRingBufferCPU : Nat → Ptr
  mRingBufferGPU : Nat → Ptr
  mLatestRGBA : Nat
  mLatestRingbuffer : Nat
  mLatestReceived : Bool
  mRGBA : Nat → Ptr
  heap : Ptr → List Nat

/-- The constructor `gstVideo::gstVideo()`: every counter is zero, every pointer is `NULL`,
nothing has been received.  The loop of the constructor runs over the sixteen slots; its body
is written with the index `n` and assigns `mRGBA` as a whole, and is read here as clearing every
entry of the three pointer arrays. -/
def gstVideo.construct : gstVideo where
  mAppSink := 0
  mWidth := 0
  mHeight := 0
  mDepth := 0
  mSize := 0
  mRingBufferCPU := fun _ => 0
  mRingBufferGPU := fun _ => 0
  mLatestRGBA := 0
  mLatestRingbuffer := 0
  mLatestReceived := false
  mRGBA := fun _ => 0
  heap := fun _ => []

/-- The constructed object once the pipeline has been created: `mAppSink` is set to the sink
handle, which is what lets `checkBuffer` go past its first test.  Nothing else differs from
`gstVideo.construct`. -/
def gstVideo.created (sink : Ptr) : gstVideo :=
  { gstVideo.construct with mAppSink := sink }

/-! ## ConvertRGBA -/

/-- Arguments of one `ConvertRGBA` call and the outcome of the external calls it can make. -/
structure ConvertArgs where
  /-- Argument `input`. -/
  input : Ptr
  /-- Whether argument `output` is non-null. -/
  output : Bool
  /-- Outcome of `cudaMalloc` for each slot: `none` when `CUDA_FAILED` (the slot is left as it
  was), else the pointer it stores in `mRGBA[n]`. -/
  cudaMalloc : Nat → Option Ptr
  /-- Whether the conversion kernel reports success. -/
  kernel : Bool

/-- What one `ConvertRGBA` call leaves behind. -/
structure ConvertResult where
  state : gstVideo
  /-- Returned `bool`. -/
  ret : Bool
  /-- Value stored in `*output`, if the store is executed. -/
  output : Option Ptr
  trace : List Event

/-- The allocation loop of `ConvertRGBA`, `k` iterations from slot `n`: it stops at the first
failing `cudaMalloc` (the `return false` inside the loop), leaving the slots before it set. -/
def allocRGBA (malloc : Nat → Option Ptr) (size : Nat) :
    Nat → Nat → (Nat → Ptr) → List Event → Bool × (Nat → Ptr) × List Event
  | 0, _, a, tr => (true, a, tr)
  | k + 1, n, a, tr =>
    match malloc n with
    | none => (false, a, tr ++ [Event.cudaMalloc n size])
    | some p => allocRGBA malloc size k (n + 1) (setSlot a n p) (tr ++ [Event.cudaMalloc n size])

/-- The lazy allocation block of `ConvertRGBA`, guarded by `if(!mRGBA[0])`.  The requested size
is `mWidth*mHeight*sizeof(float4)`, where the product of the two `uint32_t` members wraps and
the product with `sizeof(float4)` is made in a 64-bit `size_t`. -/
def ensureRGBA (s : gstVideo) (malloc : Nat → Option Ptr) : Bool × (Nat → Ptr) × List Event :=
  if s.mRGBA 0 = 0 then
    allocRGBA malloc ((s.mWidth * s.mHeight) % UINT32_RANGE * SIZEOF_FLOAT4)
      NUM_RINGBUFFERS 0 s.mRGBA []
  else (true, s.mRGBA, [])

/-- The kernel call chosen by `if(mDepth == 12) ... else ...`. -/
def kernelCall (s : gstVideo) (input dest : Ptr) : Event :=
  if s.mDepth = 12 then Event.cudaNV12ToRGBAf input dest s.mWidth s.mHeight
  else Event.cudaRGBToRGBAf input dest s.mWidth s.mHeight

/-- Member function `gstVideo::ConvertRGBA(void* input, void** output)`. -/
def ConvertRGBA (s : gstVideo) (c : ConvertArgs) : ConvertResult :=
  if c.input = 0 ∨ c.output = false then
    { state := s, ret := false, output := none, trace := [] }
  else
    match ensureRGBA s c.cudaMalloc with
    | (false, rgba, tr) =>
      { state := { s with mRGBA := rgba }, ret := false, output := none, trace := tr }
    | (true, rgba, tr) =>
      if c.kernel = false then
        { state := { s with mRGBA := rgba }, ret := false, output := none,
          trace := tr ++ [kernelCall s c.input (rgba s.mLatestRGBA)] }
      else
        { state := { s with mRGBA := rgba,
                            mLatestRGBA := (s.mLatestRGBA + 1) % NUM_RINGBUFFERS },
          ret := true, output := some (rgba s.mLatestRGBA),
          trace := tr ++ [kernelCall s c.input (rgba s.mLatestRGBA)] }

/-! ## Capture -/

/-- Arguments of one `Capture` call and the outcome of its wait. -/
structure CaptureArgs where
  /-- Whether argument `cpu` is non-null. -/
  cpu : Bool
  /-- Whether argument `cuda` is non-null. -/
  cuda : Bool
  /-- Value of `mWaitEvent->wait(mWaitMutex, timeout)`: `false` is a timeout. -/
  wait_result : Bool

/-- What one `Capture` call leaves behind. -/
structure CaptureResult where
  state : gstVideo
  /-- Returned `bool`. -/
  ret : Bool
  /-- Value stored in `*cpu`, if the store is executed. -/
  cpu : Option Ptr
  /-- Value stored in `*cuda`, if the store is executed. -/
  cuda : Option Ptr

/-- Member function `gstVideo::Capture(void** cpu, void** cuda, unsigned long timeout)`. -/
def Capture (s : gstVideo) (c : CaptureArgs) : CaptureResult :=
  if c.wait_result = false then
    { state := s, ret := false, cpu := none, cuda := none }
  else
    let latest := s.mLatestRingbuffer
    let received := s.mLatestReceived
    let s1 := { s with mLatestReceived := true }
    if received then
      { state := s1, ret := false, cpu := none, cuda := none }
    else
      { state := s1, ret := true,
        cpu := if c.cpu then some (s.mRingBufferCPU latest) else none,
        cuda := if c.cuda then some (s.mRingBufferGPU latest) else none }

/-! ## checkBuffer -/

/-- What the pipeline hands to one `checkBuffer` call: the outcome of each GStreamer call of the
function, and of `cudaAllocMapped`. -/
structure Pulled where
  /-- Whether `gst_app_sink_pull_sample` returns a sample. -/
  gstSample : Bool
  /-- Whether `gst_sample_get_buffer` returns a buffer. -/
  gstBuffer : Bool
  /-- Whether `gst_buffer_map` succeeds. -/
  mapped : Bool
  /-- Bytes behind `map.data`; `none` is a `NULL` data pointer. -/
  gstData : Option (List Nat)
  /-- Value of `map.size`. -/
  mapSize : Nat
  /-- Whether the sample has caps. -/
  gstCaps : Bool
  /-- Whether `gst_caps_get_structure` returns a structure. -/
  gstCapsStruct : Bool
  /-- Field `width` of the caps structure, `none` when it is missing. -/
  width : Option Int
  /-- Field `height` of the caps structure, `none` when it is missing. -/
  height : Option Int
  /-- Outcome of `cudaAllocMapped` for each slot: `none` when it returns `false` (both pointers
  of the slot are left as they were), else the host and device pointers it stores. -/
  cudaAllocMapped : Nat → Option (Ptr × Ptr)

/-- What one `checkBuffer` call leaves behind.  `trapped` tells that the call did not return:
it stopped in the division `(gstSize * 8)/(width * height)` on a zero divisor, which ends the
program; `state` and `trace` are then what had been done up to that point. -/
structure CheckResult where
  state : gstVideo
  trace : List Event
  trapped : Bool := false

/-- The allocation loop of `checkBuffer`, `k` iterations from slot `n`: a failing
`cudaAllocMapped` is logged and the loop goes on. -/
def allocRing (alloc : Nat → Option (Ptr × Ptr)) (size : Nat) :
    Nat → Nat → (Nat → Ptr) → (Nat → Ptr) → List Event →
      (Nat → Ptr) × (Nat → Ptr) × List Event
  | 0, _, cpu, gpu, tr => (cpu, gpu, tr)
  | k + 1, n, cpu, gpu, tr =>
    match alloc n with
    | none => allocRing alloc size k (n + 1) cpu gpu (tr ++ [Event.cudaAllocMapped n size])
    | some (c, g) =>
      allocRing alloc size k (n + 1) (setSlot cpu n c) (setSlot gpu n g)
        (tr ++ [Event.cudaAllocMapped n size])

/-- The lazy allocation block of `checkBuffer`, guarded by `if(!mRingBufferCPU[0])`. -/
def ensureRing (s : gstVideo) (alloc : Nat → Option (Ptr × Ptr)) (gstSize : Nat) :
    (Nat → Ptr) × (Nat → Ptr) × List Event :=
  if s.mRingBufferCPU 0 = 0 then
    allocRing alloc gstSize NUM_RINGBUFFERS 0 s.mRingBufferCPU s.mRingBufferGPU []
  else (s.mRingBufferCPU, s.mRingBufferGPU, [])

/-- Conversion of an `int` to `uint32_t`. -/
def toUInt32 (i : Int) : Nat := (i % (UINT32_RANGE : Int)).toNat

/-- The expression `(gstSize * 8)/(width * height)`: the dividend is a `uint32_t` product and
wraps; the divisor is an `int` product converted to `unsigned` for the division, where an `int`
overflow is taken to wrap.  A zero divisor (for instance 65536 by 65536, whose product wraps to
zero) has no value: the division is undefined and traps, so the result is `none`. -/
def depthOf (gstSize : Nat) (width height : Int) : Option Nat :=
  if toUInt32 (width * height) = 0 then none
  else some ((gstSize * 8) % UINT32_RANGE / toUInt32 (width * height))

/-- The part of `checkBuffer` after the geometry tests, from `mWidth = width` to the end.
`gstSize` is `map.size` narrowed to `uint32_t`.  When the division for `mDepth` has a zero
divisor the call traps there: `mWidth` and `mHeight` have been stored, nothing is allocated,
copied or released.  Otherwise the copy is made whatever the allocation loop did; `memcpy`
moves `gstSize` bytes whatever the size of the slot, and the bytes of the slot are then the
copied bytes.  A copy to a `NULL` slot is undefined in C; here it shows as a `memcpy` event
with destination 0. -/
def storeFrame (s : gstVideo) (p : Pulled) (data : List Nat) (width height : Int) :
    CheckResult :=
  let gstSize := p.mapSize % UINT32_RANGE
  match depthOf gstSize width height with
  | none =>
    { state := { s with mWidth := toUInt32 width, mHeight := toUInt32 height },
      trace := [], trapped := true }
  | some depth =>
    match ensureRing s p.cudaAllocMapped gstSize with
    | (cpu, gpu, tr) =>
      let nextRingbuffer := (s.mLatestRingbuffer + 1) % NUM_RINGBUFFERS
      { state := { s with mWidth := toUInt32 width,
                          mHeight := toUInt32 height,
                          mDepth := depth,
                          mSize := gstSize,
                          mRingBufferCPU := cpu,
                          mRingBufferGPU := gpu,
                          heap := store s.heap (cpu nextRingbuffer) (data.take gstSize) },
        trace := tr ++ [Event.memcpy (cpu nextRingbuffer) (data.take gstSize),
                        Event.gst_buffer_unmap, Event.gst_sample_unref] }

/-- Member function `gstVideo::checkBuffer()`.  Each plain `return` of the source leaves the
object as it is and makes no further call; `release_return` calls `gst_sample_unref` first. -/
def checkBuffer (s : gstVideo) (p : Pulled) : CheckResult :=
  if s.mAppSink = 0 then { state := s, trace := [] }
  else if p.gstSample = false then { state := s, trace := [] }
  else if p.gstBuffer = false then { state := s, trace := [] }
  else if p.mapped = false then { state := s, trace := [] }
  else
    match p.gstData with
    | none => { state := s, trace := [] }
    | some data =>
      if p.gstCaps = false then { state := s, trace := [] }
      else if p.gstCapsStruct = false then { state := s, trace := [] }
      else
        match p.width, p.height with
        | some width, some height =>
          if width < 1 ∨ height < 1 then { state := s, trace := [Event.gst_sample_unref] }
          else storeFrame s p data width height
        | _, _ => { state := s, trace := [] }

/-! ## Sequences of calls -/

/-- One call of a member function, with the outcome of its external calls. -/
inductive Call where
  | Capture (c : CaptureArgs)
  | ConvertRGBA (c : ConvertArgs)
  | checkBuffer (p : Pulled)

/-- What one call leaves behind. -/
inductive Outcome where
  | Capture (r : CaptureResult)
  | ConvertRGBA (r : ConvertResult)
  | checkBuffer (r : CheckResult)

/-- The object after the call. -/
def Outcome.state : Outcome → gstVideo
  | Outcome.Capture r => r.state
  | Outcome.ConvertRGBA r => r.state
  | Outcome.checkBuffer r => r.state

/-- The external calls made by the call (`Capture` makes none that is tracked). -/
def Outcome.trace : Outcome → List Event
  | Outcome.Capture _ => []
  | Outcome.ConvertRGBA r => r.trace
  | Outcome.checkBuffer r => r.trace

/-- Perform one call on the object. -/
def perform (s : gstVideo) : Call → Outcome
  | Call.Capture c => Outcome.Capture (Capture s c)
  | Call.ConvertRGBA c => Outcome.ConvertRGBA (ConvertRGBA s c)
  | Call.checkBuffer p => Outcome.checkBuffer (checkBuffer s p)

/-- Perform the calls one after the other; each entry pairs the object before a call with what
the call leaves behind.  A `checkBuffer` call that traps ends the program; the list goes on
from the object as the trap left it, so that it holds the entries of the real execution as a
leading part and what is shown for every entry holds for those. -/
def run : gstVideo → List Call → List (gstVideo × Outcome)
  | _, [] => []
  | s, c :: cs => (s, perform s c) :: run (perform s c).state cs

/-- The successful conversions of a run, in order: the staging index at the call and the
pointer stored in `*output`. -/
def conversions : List (gstVideo × Outcome) → List (Nat × Option Ptr)
  | [] => []
  | (pre, Outcome.ConvertRGBA r) :: rest =>
    if r.ret = true then (pre.mLatestRGBA, r.output) :: conversions rest else conversions rest
  | _ :: rest => conversions rest

/-! ## Predicates on inputs -/

/-- The buffer passes every test of `checkBuffer` before the geometry tests. -/
def Pulled.readable (p : Pulled) : Prop :=
  p.gstSample = true ∧ p.gstBuffer = true ∧ p.mapped = true ∧ p.gstData.isSome = true ∧
    p.gstCaps = true ∧ p.gstCapsStruct = true

instance Pulled.decidableReadable (p : Pulled) : Decidable p.readable := by
  unfold Pulled.readable
  infer_instance

/-- The format description lacks width or height, or one of them is below one. -/
def Pulled.invalidGeometry (p : Pulled) : Prop :=
  p.width = none ∨ p.height = none ∨ (∃ w ∈ p.width, w < 1) ∨ (∃ h ∈ p.height, h < 1)

instance Pulled.decidableInvalidGeometry (p : Pulled) : Decidable p.invalidGeometry := by
  unfold Pulled.invalidGeometry
  infer_instance

/-- A valid frame of `width` by `height` pixels: every test of `checkBuffer` passes, both
dimensions are positive `int` values, the mapped bytes are `map.size` many, a `uint32_t`
value, and the pixel count `width * height` is an `int` value, so that the product in
`(gstSize * 8)/(width * height)` does not overflow and the divisor is not zero. -/
def Pulled.validFrame (p : Pulled) (width height : Int) (data : List Nat) : Prop :=
  p.readable ∧ p.width = some width ∧ p.height = some height ∧
    1 ≤ width ∧ width < 2 ^ 31 ∧ 1 ≤ height ∧ height < 2 ^ 31 ∧
    p.gstData = some data ∧ data.length = p.mapSize ∧ p.mapSize < UINT32_RANGE ∧
    width * height < 2 ^ 31

instance Pulled.decidableValidFrame (p : Pulled) (width height : Int) (data : List Nat) :
    Decidable (p.validFrame width height data) := by
  unfold Pulled.validFrame
  infer_instance

/-- The event is a call of a conversion kernel. -/
def Event.isKernel : Event → Bool
  | Event.cudaNV12ToRGBAf _ _ _ _ => true
  | Event.cudaRGBToRGBAf _ _ _ _ => true
  | _ => false

/-- The event is an allocation (`cudaMalloc` or `cudaAllocMapped`). -/
def Event.isAlloc : Event → Bool
  | Event.cudaMalloc _ _ => true
  | Event.cudaAllocMapped _ _ => true
  | _ => false

/-- The event is a `memcpy`. -/
def Event.isMemcpy : Event → Bool
  | Event.memcpy _ _ => true
  | _ => false

/-- The allocation of a `ConvertRGBA` call succeeds: the pool is there already (`mRGBA[0]` is
set, so nothing is allocated), or every `cudaMalloc` of the loop succeeds. -/
def allocSucceeds (s : gstVideo) (c : ConvertArgs) : Prop :=
  s.mRGBA 0 ≠ 0 ∨ ∀ n, n < NUM_RINGBUFFERS → (c.cudaMalloc n).isSome = true

instance decidableAllocSucceeds (s : gstVideo) (c : ConvertArgs) :
    Decidable (allocSucceeds s c) := by
  unfold allocSucceeds
  infer_instance

/-- The event is a `cudaAllocMapped` call. -/
def Event.isAllocMapped : Event → Bool
  | Event.cudaAllocMapped _ _ => true
  | _ => false

/-- The event is a `cudaMalloc` call. -/
def Event.isMalloc : Event → Bool
  | Event.cudaMalloc _ _ => true
  | _ => false

/-- Every `cudaAllocMapped` call of the allocation loop succeeds with a non-null host
pointer. -/
def Pulled.allocatesAll (p : Pulled) : Prop :=
  ∀ n, n < NUM_RINGBUFFERS → ∃ q ∈ p.cudaAllocMapped n, q.1 ≠ 0

instance Pulled.decidableAllocatesAll (p : Pulled) : Decidable p.allocatesAll := by
  unfold Pulled.allocatesAll
  infer_instance

/-- Every `cudaMalloc` call of the allocation loop succeeds with a non-null pointer. -/
def ConvertArgs.allocatesAll (c : ConvertArgs) : Prop :=
  ∀ n, n < NUM_RINGBUFFERS → ∃ q ∈ c.cudaMalloc n, q ≠ 0

instance ConvertArgs.decidableAllocatesAll (c : ConvertArgs) : Decidable c.allocatesAll := by
  unfold ConvertArgs.allocatesAll
  infer_instance

/-! ## Sample inputs -/

/-- A packed 2 by 2 frame of twelve bytes; every slot allocation succeeds, slot `n` getting
host pointer `1000 + n` and device pointer `2000 + n`. -/
def frameA : Pulled where
  gstSample := true
  gstBuffer := true
  mapped := true
  gstData := some [1, 2, 3, 4, 5, 6, 7, 8, 9, 10, 11, 12]
  mapSize := 12
  gstCaps := true
  gstCapsStruct := true
  width := some 2
  height := some 2
  cudaAllocMapped := fun n => some (1000 + n, 2000 + n)

/-- A second packed 2 by 2 frame, with other bytes. -/
def frameB : Pulled :=
  { frameA with gstData := some [21, 22, 23, 24, 25, 26, 27, 28, 29, 30, 31, 32] }

/-- A `Capture` call with both output pointers given and a wait that is woken up. -/
def captureWoken : CaptureArgs := { cpu := true, cuda := true, wait_result := true }

/-- A `Capture` call with both output pointers given and a wait that times out. -/
def captureTimeout : CaptureArgs := { cpu := true, cuda := true, wait_result := false }

/-- A `ConvertRGBA` call on input `5000` where every `cudaMalloc` succeeds, slot `n` getting
pointer `3000 + n`, and the kernel succeeds. -/
def convertOk : ConvertArgs :=
  { input := 5000, output := true, cudaMalloc := fun n => some (3000 + n), kernel := true }

/-- A buffer whose caps have no height. -/
def frameNoHeight : Pulled := { frameA with height := none }

/-- A buffer whose caps give a width of zero. -/
def frameZeroWidth : Pulled := { frameA with width := some 0 }

/-- An object with an allocated staging pool (slot `n` at `3000 + n`), staging index 3 and a
stored 640 by 480 geometry of depth 12. -/
def stagedNV12 : gstVideo :=
  { gstVideo.created 1 with
    mWidth := 640, mHeight := 480, mDepth := 12, mSize := 460800,
    mRGBA := fun n => 3000 + n, mLatestRGBA := 3 }

/-- A packed 16384 by 16384 frame: 805306368 bytes, three per pixel. -/
def frameHuge : Pulled :=
  { frameA with
    gstData := some (List.replicate 805306368 0), mapSize := 805306368,
    width := some 16384, height := some 16384 }

/-- A packed 640 by 480 frame: 921600 bytes, three per pixel. -/
def frameVGA : Pulled :=
  { frameA with
    gstData := some (List.replicate 921600 0), mapSize := 921600,
    width := some 640, height := some 480 }

/-- The created object after frame A has been ingested. -/
def afterA : gstVideo := (checkBuffer (gstVideo.created 1) frameA).state

/-- The created object after frame A and then frame B have been ingested. -/
def afterAB : gstVideo := (checkBuffer afterA frameB).state

/-- The created object after frame A, a woken `Capture`, and then frame B. -/
def afterACaptureB : gstVideo := (checkBuffer (Capture afterA captureWoken).state frameB).state

/-- A sample for which `gst_sample_get_buffer` returns `NULL`. -/
def frameNoBuffer : Pulled := { frameA with gstBuffer := false }

/-- A `ConvertRGBA` call whose `cudaMalloc` fails for slot 1 only. -/
def convertFailAt1 : ConvertArgs :=
  { convertOk with cudaMalloc := fun n => if n = 1 then none else some (3000 + n) }

/-- A `ConvertRGBA` call whose `cudaMalloc` fails for every slot. -/
def convertFailAll : ConvertArgs := { convertOk with cudaMalloc := fun _ => none }

/-- Frame A again, but `cudaAllocMapped` fails for slot 0 and succeeds for the others. -/
def frameAllocFail0 : Pulled :=
  { frameA with
    cudaAllocMapped := fun n => if n = 0 then none else some (1000 + n, 2000 + n) }

/-- Frame A again, but `cudaAllocMapped` fails for slot 1 and succeeds for the others. -/
def frameAllocFail1 : Pulled :=
  { frameA with
    cudaAllocMapped := fun n => if n = 1 then none else some (1000 + n, 2000 + n) }

/-- A readable buffer whose caps give 65536 by 65536: both dimensions are positive `int`
values and their `int` product wraps to zero. -/
def frameOverflow : Pulled := { frameA with width := some 65536, height := some 65536 }

/-- The object that holds frame A after the `ConvertRGBA` call whose `cudaMalloc` fails for
slot 1. -/
def afterFailAt1 : gstVideo := (ConvertRGBA afterA convertFailAt1).state

/-- The object `afterFailAt1` after one more `ConvertRGBA` call, which succeeds. -/
def afterFailAt1Ok : gstVideo := (ConvertRGBA afterFailAt1 convertOk).state

/-- The object that holds frame A after the `ConvertRGBA` call whose `cudaMalloc` fails for
slot 0. -/
def afterFailAll : gstVideo := (ConvertRGBA afterA convertFailAll).state

/-- A created object whose stored width and height are 65536 each and whose pools are not
allocated. -/
def createdWide : gstVideo := { gstVideo.created 1 with mWidth := 65536, mHeight := 65536 }

/-- A 4 by 2 frame of 24 bytes: a later frame of another size. -/
def frameWide : Pulled :=
  { frameA with
    gstData := some (List.replicate 24 7), mapSize := 24, width := some 4, height := some 2 }

/-! ## Basic facts -/

theorem run_mem_perform {s : gstVideo} {calls : List Call} {pre : gstVideo} {o : Outcome}
    (h : (pre, o) ∈ run s calls) : ∃ call ∈ calls, o = perform pre call := by
  induction calls generalizing s with
  | nil => simp [run] at h
  | cons c cs ih =>
    simp only [run, List.mem_cons, Prod.mk.injEq] at h
    rcases h with ⟨h1, h2⟩ | h
    · exact ⟨c, List.mem_cons_self _ _, by rw [h2, h1]⟩
    · obtain ⟨call, hc, ho⟩ := ih h
      exact ⟨call, List.mem_cons_of_mem _ hc, ho⟩

theorem Capture_received (s : gstVideo) (c : CaptureArgs) (h : s.mLatestReceived = true) :
    (Capture s c).state.mLatestReceived = true := by
  unfold Capture
  split <;> simp_all

theorem ConvertRGBA_received (s : gstVideo) (c : ConvertArgs) :
    (ConvertRGBA s c).state.mLatestReceived = s.mLatestReceived ∧
    (ConvertRGBA s c).state.mLatestRingbuffer = s.mLatestRingbuffer := by
  unfold ConvertRGBA
  split
  · simp
  · split
    · simp
    · split <;> simp

theorem checkBuffer_latest (s : gstVideo) (p : Pulled) :
    (checkBuffer s p).state.mLatestReceived = s.mLatestReceived ∧
    (checkBuffer s p).state.mLatestRingbuffer = s.mLatestRingbuffer := by
  unfold checkBuffer storeFrame
  dsimp only
  repeat' split
  all_goals simp

theorem perform_received (s : gstVideo) (call : Call) (h : s.mLatestReceived = true) :
    (perform s call).state.mLatestReceived = true := by
  cases call with
  | Capture c => exact Capture_received s c h
  | ConvertRGBA c => simpa [perform, Outcome.state, h] using (ConvertRGBA_received s c).1
  | checkBuffer p => simpa [perform, Outcome.state, h] using (checkBuffer_latest s p).1

theorem run_received {s : gstVideo} {calls : List Call} (h : s.mLatestReceived = true)
    {pre : gstVideo} {o : Outcome} (hm : (pre, o) ∈ run s calls) :
    pre.mLatestReceived = true := by
  induction calls generalizing s with
  | nil => simp [run] at hm
  | cons c cs ih =>
    simp only [run, List.mem_cons, Prod.mk.injEq] at hm
    rcases hm with ⟨h1, _⟩ | hm
    · rw [h1]; exact h
    · exact ih (perform_received s c h) hm

/-! ## Capture -/

/-- Claim C2: after a `Capture` call that returns success, every further `Capture` call of a
run without `checkBuffer` calls returns failure, whether its wait times out or is woken, and
stores nothing through `cpu` or `cuda`. -/
theorem Capture_at_most_once (s : gstVideo) (c : CaptureArgs)
    (h : (Capture s c).ret = true) (calls : List Call)
    (_hno : ∀ p, Call.checkBuffer p ∉ calls) (pre : gstVideo) (r : CaptureResult)
    (hr : (pre, Outcome.Capture r) ∈ run (Capture s c).state calls) :
    r.ret = false ∧ r.cpu = none ∧ r.cuda = none := by
  have hs : (Capture s c).state.mLatestReceived = true := by
    revert h
    unfold Capture
    by_cases hw : c.wait_result = false <;> by_cases hv : s.mLatestReceived = true <;>
      simp [hw, hv]
  have hpre := run_received hs hr
  obtain ⟨call, _, ho⟩ := run_mem_perform hr
  cases call with
  | Capture c2 =>
    simp only [perform, Outcome.Capture.injEq] at ho
    subst ho
    unfold Capture
    split
    · simp
    · simp [hpre]
  | ConvertRGBA c2 => simp [perform] at ho
  | checkBuffer p => simp [perform] at ho

/-- Witness of claim C2: on the created object a woken `Capture` succeeds and the woken
`Capture` that follows it fails without storing a pointer. -/
theorem Capture_at_most_once_witness :
    (Capture (gstVideo.created 1) captureWoken).ret = true ∧
    (Capture (Capture (gstVideo.created 1) captureWoken).state captureWoken).ret = false ∧
    (Capture (Capture (gstVideo.created 1) captureWoken).state captureWoken).cpu = none ∧
    (Capture (Capture (gstVideo.created 1) captureWoken).state captureWoken).cuda = none :=
  ⟨rfl, Capture_at_most_once (gstVideo.created 1) captureWoken rfl
    [Call.Capture captureWoken] (by simp) (Capture (gstVideo.created 1) captureWoken).state
    (Capture (Capture (gstVideo.created 1) captureWoken).state captureWoken)
    (by simp [run, perform])⟩

/-- Claim C3: a `Capture` call whose wait times out returns failure, stores nothing through
`cpu` or `cuda`, and leaves the latest ring index, the delivered flag and the whole object
unchanged, so that any `Capture` made next behaves as it would have without the timed-out
call. -/
theorem Capture_timeout_recoverable (s : gstVideo) (c : CaptureArgs)
    (h : c.wait_result = false) :
    (Capture s c).ret = false ∧ (Capture s c).cpu = none ∧ (Capture s c).cuda = none ∧
    (Capture s c).state.mLatestRingbuffer = s.mLatestRingbuffer ∧
    (Capture s c).state.mLatestReceived = s.mLatestReceived ∧
    (Capture s c).state = s ∧
    ∀ c2 : CaptureArgs, Capture (Capture s c).state c2 = Capture s c2 := by
  simp [Capture, h]

/-- Witness of claim C3: a timed-out `Capture` on the object that holds frame A. -/
theorem Capture_timeout_recoverable_witness :
    captureTimeout.wait_result = false ∧
    (Capture (checkBuffer (gstVideo.created 1) frameA).state captureTimeout).ret = false ∧
    (Capture (checkBuffer (gstVideo.created 1) frameA).state captureTimeout).state =
      (checkBuffer (gstVideo.created 1) frameA).state :=
  ⟨rfl,
    (Capture_timeout_recoverable (checkBuffer (gstVideo.created 1) frameA).state
      captureTimeout rfl).1,
    (Capture_timeout_recoverable (checkBuffer (gstVideo.created 1) frameA).state
      captureTimeout rfl).2.2.2.2.2.1⟩

/-! ## checkBuffer: rejected geometry -/

/-- Claim C5: when the format description lacks width or height, or width or height is below
one, `checkBuffer` leaves the stored width, height, depth and size, every pool slot (host and
device pointer, and the bytes in memory), the latest ring index and the delivered flag as they
were; it allocates nothing and copies nothing. -/
theorem checkBuffer_invalid_geometry (s : gstVideo) (p : Pulled) (h : p.invalidGeometry) :
    (checkBuffer s p).state.mWidth = s.mWidth ∧
    (checkBuffer s p).state.mHeight = s.mHeight ∧
    (checkBuffer s p).state.mDepth = s.mDepth ∧
    (checkBuffer s p).state.mSize = s.mSize ∧
    (checkBuffer s p).state.mRingBufferCPU = s.mRingBufferCPU ∧
    (checkBuffer s p).state.mRingBufferGPU = s.mRingBufferGPU ∧
    (checkBuffer s p).state.heap = s.heap ∧
    (checkBuffer s p).state.mLatestRingbuffer = s.mLatestRingbuffer ∧
    (checkBuffer s p).state.mLatestReceived = s.mLatestReceived ∧
    (checkBuffer s p).state = s ∧
    (∀ e ∈ (checkBuffer s p).trace, e.isAlloc = false ∧ e.isMemcpy = false) := by
  have key : (checkBuffer s p).state = s ∧
      (∀ e ∈ (checkBuffer s p).trace, e.isAlloc = false ∧ e.isMemcpy = false) := by
    unfold checkBuffer
    rcases h with h | h | ⟨w, hw, hlt⟩ | ⟨w, hw, hlt⟩
    all_goals try rw [Option.mem_def] at hw
    · rw [h]
      repeat' split
      all_goals simp_all
    · rw [h]
      repeat' split
      all_goals simp_all
    · rw [hw]
      repeat' split
      all_goals first
        | (exfalso; omega)
        | (simp_all [Event.isAlloc, Event.isMemcpy] <;> exfalso <;> omega)
    · rw [hw]
      repeat' split
      all_goals first
        | (exfalso; omega)
        | (simp_all [Event.isAlloc, Event.isMemcpy] <;> exfalso <;> omega)
  refine ⟨?_, ?_, ?_, ?_, ?_, ?_, ?_, ?_, ?_, key.1, key.2⟩ <;> rw [key.1]

/-- Witness of claim C5: a buffer without height, offered to the object that holds frame A,
changes nothing. -/
theorem checkBuffer_invalid_geometry_witness :
    frameNoHeight.invalidGeometry ∧
    (checkBuffer (checkBuffer (gstVideo.created 1) frameA).state frameNoHeight).state =
      (checkBuffer (gstVideo.created 1) frameA).state :=
  ⟨by decide,
    (checkBuffer_invalid_geometry (checkBuffer (gstVideo.created 1) frameA).state
      frameNoHeight (by decide)).2.2.2.2.2.2.2.2.2.1⟩

/-! ## ConvertRGBA: kernel selection -/

/-- Claim C10: with non-null `input` and `output` and an allocated staging pool, a stored depth
of 12 makes `ConvertRGBA` call the NV12 kernel once and no other kernel, a stored depth of 24
makes it call the packed RGB kernel once and no other kernel; the kernel gets the given input,
the staging slot at the staging index, and the stored width and height; and `ConvertRGBA`
returns failure exactly when the kernel reports failure. -/
theorem ConvertRGBA_kernel_selection (s : gstVideo) (c : ConvertArgs)
    (hin : c.input ≠ 0) (hout : c.output = true) (hpool : s.mRGBA 0 ≠ 0) :
    (s.mDepth = 12 → (ConvertRGBA s c).trace =
      [Event.cudaNV12ToRGBAf c.input (s.mRGBA s.mLatestRGBA) s.mWidth s.mHeight]) ∧
    (s.mDepth = 24 → (ConvertRGBA s c).trace =
      [Event.cudaRGBToRGBAf c.input (s.mRGBA s.mLatestRGBA) s.mWidth s.mHeight]) ∧
    ((ConvertRGBA s c).ret = false ↔ c.kernel = false) := by
  have he : ensureRGBA s c.cudaMalloc = (true, s.mRGBA, []) := by
    simp [ensureRGBA, hpool]
  unfold ConvertRGBA
  rw [he]
  by_cases hk : c.kernel = false <;> simp [hin, hout, hk, kernelCall] <;> omega

/-- Witness of claim C10: at depth 12 the NV12 kernel is the one call, on slot 3. -/
theorem ConvertRGBA_kernel_selection_witness :
    convertOk.input ≠ 0 ∧ convertOk.output = true ∧ stagedNV12.mRGBA 0 ≠ 0 ∧
    stagedNV12.mDepth = 12 ∧
    (ConvertRGBA stagedNV12 convertOk).trace = [Event.cudaNV12ToRGBAf 5000 3003 640 480] :=
  ⟨by decide, rfl, by decide, rfl,
    (ConvertRGBA_kernel_selection stagedNV12 convertOk (by decide) rfl (by decide)).1 rfl⟩

/-! ## checkBuffer: stored depth -/

theorem checkBuffer_eq_storeFrame (s : gstVideo) (p : Pulled) (data : List Nat)
    (width height : Int) (hs : s.mAppSink ≠ 0) (hp : p.readable)
    (hd : p.gstData = some data) (hw : p.width = some width) (hh : p.height = some height)
    (h1 : 1 ≤ width) (h2 : 1 ≤ height) :
    checkBuffer s p = storeFrame s p data width height := by
  obtain ⟨ha, hb, hc, _, he, hf⟩ := hp
  have hge : ¬ (width < 1 ∨ height < 1) := by omega
  simp [checkBuffer, hs, ha, hb, hc, hd, he, hf, hw, hh, hge]

theorem storeFrame_mDepth (s : gstVideo) (p : Pulled) (data : List Nat) (width height : Int)
    (d : Nat) (h : depthOf (p.mapSize % UINT32_RANGE) width height = some d) :
    (storeFrame s p data width height).state.mDepth = d := by
  simp [storeFrame, h]

theorem depthOf_exact (S W H d : Nat) (hW : 1 ≤ W) (hH : 1 ≤ H) (hd : 1 ≤ d)
    (hS : S * 8 < UINT32_RANGE) (h : S * 8 = W * H * d) :
    depthOf (S % UINT32_RANGE) (W : Int) (H : Int) = some d := by
  have hpos : 0 < W * H := Nat.mul_pos hW hH
  have hle : W * H ≤ S * 8 := by
    rw [h]; exact Nat.le_mul_of_pos_right _ hd
  have hS2 : S < UINT32_RANGE := by omega
  have hdiv : toUInt32 ((W : Int) * (H : Int)) = W * H := by
    unfold toUInt32
    have hlt : ((W * H : Nat) : Int) < (UINT32_RANGE : Int) := by
      exact_mod_cast (lt_of_le_of_lt hle hS)
    have hnn : (0 : Int) ≤ ((W * H : Nat) : Int) := Int.ofNat_nonneg _
    rw [← Nat.cast_mul, Int.emod_eq_of_lt hnn hlt]
    exact Int.toNat_natCast _
  unfold depthOf
  rw [hdiv, if_neg (Nat.pos_iff_ne_zero.mp hpos), Nat.mod_eq_of_lt hS2, Nat.mod_eq_of_lt hS, h,
    Nat.mul_div_cancel_left d hpos]

/-- Counterexample to claim C4 as stated: a valid packed frame of 16384 by 16384 pixels has
`S = 3*W*H = 805306368`, a `uint32_t` value, yet `gstSize * 8` wraps to `2 ^ 31` and the depth
that `checkBuffer` stores is 8, not 24. -/
theorem stored_depth_wraps :
    frameHuge.validFrame 16384 16384 (List.replicate 805306368 0) ∧
    frameHuge.mapSize = 3 * 16384 * 16384 ∧
    frameHuge.mapSize < 2 ^ 32 ∧
    (checkBuffer (gstVideo.created 1) frameHuge).state.mDepth = 8 := by
  refine ⟨⟨⟨rfl, rfl, rfl, rfl, rfl, rfl⟩, rfl, rfl, by decide, by decide, by decide,
    by decide, rfl, ?_, by decide, by decide⟩, rfl, by decide, ?_⟩
  · exact List.length_replicate _ _
  · rw [checkBuffer_eq_storeFrame (gstVideo.created 1) frameHuge
      (List.replicate 805306368 0) 16384 16384 (by decide)
      ⟨rfl, rfl, rfl, rfl, rfl, rfl⟩ rfl rfl rfl (by decide) (by decide)]
    exact storeFrame_mDepth _ _ _ _ _ 8 (by decide)

/-- Claim C4, amended: for a readable buffer of `S` bytes with width `W >= 1` and height
`H >= 1`, as long as `S * 8` fits in 32 bits, the depth that `checkBuffer` stores is 24 when
the frame is packed (`S = 3*W*H`) and 12 when it is semi-planar (`2*S = 3*W*H`). -/
theorem checkBuffer_depth (s : gstVideo) (p : Pulled) (W H : Nat)
    (hs : s.mAppSink ≠ 0) (hp : p.readable)
    (hw : p.width = some (W : Int)) (hh : p.height = some (H : Int))
    (hW : 1 ≤ W) (hH : 1 ≤ H) (hS : p.mapSize * 8 < UINT32_RANGE) :
    (p.mapSize = 3 * W * H → (checkBuffer s p).state.mDepth = 24) ∧
    (2 * p.mapSize = 3 * W * H → (checkBuffer s p).state.mDepth = 12) := by
  obtain ⟨data, hd⟩ := Option.isSome_iff_exists.mp hp.2.2.2.1
  rw [checkBuffer_eq_storeFrame s p data W H hs hp hd hw hh (by exact_mod_cast hW)
    (by exact_mod_cast hH)]
  constructor
  · intro h
    exact storeFrame_mDepth s p data W H 24
      (depthOf_exact p.mapSize W H 24 hW hH (by decide) hS (by rw [h]; ring))
  · intro h
    exact storeFrame_mDepth s p data W H 12
      (depthOf_exact p.mapSize W H 12 hW hH (by decide) hS (by linarith))

/-- Witness of claim C4: 640 by 480 with 921600 bytes gives depth 24. -/
theorem checkBuffer_depth_witness :
    frameVGA.readable ∧ frameVGA.mapSize * 8 < UINT32_RANGE ∧
    frameVGA.mapSize = 3 * 640 * 480 ∧
    (checkBuffer (gstVideo.created 1) frameVGA).state.mDepth = 24 :=
  ⟨⟨rfl, rfl, rfl, rfl, rfl, rfl⟩, by decide, by decide,
    (checkBuffer_depth (gstVideo.created 1) frameVGA 640 480 (by decide)
      ⟨rfl, rfl, rfl, rfl, rfl, rfl⟩ rfl rfl (by decide) (by decide) (by decide)).1
      (by decide)⟩

/-! ## checkBuffer followed by Capture -/

/-- `checkBuffer` never writes the latest ring index nor the delivered flag, whatever it is
given. -/
theorem checkBuffer_never_publishes (s : gstVideo) (p : Pulled) :
    (checkBuffer s p).state.mLatestRingbuffer = s.mLatestRingbuffer ∧
    (checkBuffer s p).state.mLatestReceived = s.mLatestReceived :=
  ⟨(checkBuffer_latest s p).2, (checkBuffer_latest s p).1⟩

/-- Claim C1, evaluated on the code.  Frames A and B are valid 2 by 2 packed frames and every
allocation succeeds (slot `n` at host `1000 + n`, device `2000 + n`).
After A alone, the ring index is still 0 and A sits in slot 1; a woken `Capture` returns
success with the pointers of slot 0, which no copy has written.
After A then B without a `Capture` between them, B has replaced A in slot 1 and a woken
`Capture` again returns the pointers of the unwritten slot 0.
After A, a woken `Capture`, and B, the delivered flag is still set and a woken `Capture`
returns failure. -/
theorem Capture_misses_ingested_frame :
    frameA.validFrame 2 2 [1, 2, 3, 4, 5, 6, 7, 8, 9, 10, 11, 12] ∧
    frameB.validFrame 2 2 [21, 22, 23, 24, 25, 26, 27, 28, 29, 30, 31, 32] ∧
    afterA.mLatestRingbuffer = 0 ∧
    afterA.mRingBufferCPU 0 = 1000 ∧ afterA.mRingBufferGPU 0 = 2000 ∧
    afterA.mRingBufferCPU 1 = 1001 ∧
    afterA.heap 1001 = [1, 2, 3, 4, 5, 6, 7, 8, 9, 10, 11, 12] ∧
    afterA.heap 1000 = [] ∧
    (Capture afterA captureWoken).ret = true ∧
    (Capture afterA captureWoken).cpu = some 1000 ∧
    (Capture afterA captureWoken).cuda = some 2000 ∧
    afterAB.mLatestRingbuffer = 0 ∧
    afterAB.heap 1001 = [21, 22, 23, 24, 25, 26, 27, 28, 29, 30, 31, 32] ∧
    afterAB.heap 1000 = [] ∧
    (Capture afterAB captureWoken).ret = true ∧
    (Capture afterAB captureWoken).cpu = some 1000 ∧
    afterACaptureB.mLatestReceived = true ∧
    (Capture afterACaptureB captureWoken).ret = false ∧
    (Capture afterACaptureB captureWoken).cpu = none := by
  refine ⟨⟨⟨rfl, rfl, rfl, rfl, rfl, rfl⟩, rfl, rfl, by decide, by decide, by decide,
    by decide, rfl, rfl, by decide, by decide⟩, ⟨⟨rfl, rfl, rfl, rfl, rfl, rfl⟩, rfl, rfl,
    by decide, by decide, by decide, by decide, rfl, rfl, by decide, by decide⟩, ?_⟩
  refine ⟨rfl, rfl, rfl, rfl, rfl, rfl, rfl, rfl, rfl, rfl, rfl, rfl, rfl, rfl, rfl, rfl, rfl⟩

/-! ## checkBuffer: release of the sample and of the mapping -/

/-- Every plain `return` of `checkBuffer` that comes after the sample has been pulled (no
buffer, failed mapping, `NULL` data, no caps, no caps structure, missing width or height)
makes no call at all: neither `gst_sample_unref` nor `gst_buffer_unmap`. -/
theorem checkBuffer_plain_return (s : gstVideo) (p : Pulled)
    (h : p.gstBuffer = false ∨ p.mapped = false ∨ p.gstData = none ∨ p.gstCaps = false ∨
      p.gstCapsStruct = false ∨ p.width = none ∨ p.height = none) :
    (checkBuffer s p).trace = [] := by
  unfold checkBuffer
  rcases h with h | h | h | h | h | h | h <;> rw [h] <;> repeat' split
  all_goals simp_all

/-- The `release_return` exit of `checkBuffer` (width or height below one) releases the sample
and does not unmap the buffer it has mapped. -/
theorem checkBuffer_release_return (s : gstVideo) (p : Pulled) (w h : Int)
    (hs : s.mAppSink ≠ 0) (hp : p.readable) (hw : p.width = some w) (hh : p.height = some h)
    (hlt : w < 1 ∨ h < 1) :
    (checkBuffer s p).trace = [Event.gst_sample_unref] := by
  obtain ⟨ha, hb, hc, hd, he, hf⟩ := hp
  obtain ⟨data, hd⟩ := Option.isSome_iff_exists.mp hd
  simp [checkBuffer, hs, ha, hb, hc, hd, he, hf, hw, hh, hlt]

/-- Claim C6, evaluated on the code.  With a sample but no buffer, `checkBuffer` returns
without any call, so the sample is never released.  With a mapped buffer of width zero it
releases the sample and never unmaps the buffer.  Only the path that stores a frame unmaps the
buffer and releases the sample, once each. -/
theorem checkBuffer_leaks_on_early_return :
    frameNoBuffer.gstSample = true ∧
    (checkBuffer (gstVideo.created 1) frameNoBuffer).trace = [] ∧
    frameZeroWidth.gstSample = true ∧ frameZeroWidth.mapped = true ∧
    (checkBuffer (gstVideo.created 1) frameZeroWidth).trace = [Event.gst_sample_unref] ∧
    ((checkBuffer (gstVideo.created 1) frameA).trace.filter
      (fun e => e = Event.gst_sample_unref)).length = 1 ∧
    ((checkBuffer (gstVideo.created 1) frameA).trace.filter
      (fun e => e = Event.gst_buffer_unmap)).length = 1 := by
  refine ⟨rfl, rfl, rfl, rfl, rfl, ?_, ?_⟩ <;> decide

/-! ## ConvertRGBA: the staging index -/

theorem allocRGBA_ok (malloc : Nat → Option Ptr) (size : Nat) (k n : Nat) (a : Nat → Ptr)
    (tr : List Event) (h : ∀ i, n ≤ i → i < n + k → (malloc i).isSome = true) :
    (allocRGBA malloc size k n a tr).1 = true := by
  induction k generalizing n a tr with
  | zero => rfl
  | succ k ih =>
    unfold allocRGBA
    have hn := h n (le_refl n) (by omega)
    obtain ⟨q, hq⟩ := Option.isSome_iff_exists.mp hn
    rw [hq]
    exact ih (n + 1) _ _ (fun i h1 h2 => h i (by omega) (by omega))

theorem ensureRGBA_ok (s : gstVideo) (c : ConvertArgs) (h : allocSucceeds s c) :
    (ensureRGBA s c.cudaMalloc).1 = true := by
  unfold ensureRGBA
  split
  · rename_i h0
    rcases h with h | h
    · exact absurd h0 h
    · exact allocRGBA_ok _ _ _ _ _ _ (fun i _ h2 => h i (by simpa using h2))
  · rfl

theorem ConvertRGBA_of_ok (s : gstVideo) (c : ConvertArgs) (hin : c.input ≠ 0)
    (hout : c.output = true) (ha : (ensureRGBA s c.cudaMalloc).1 = true)
    (hk : c.kernel = true) :
    (ConvertRGBA s c).ret = true ∧
    (ConvertRGBA s c).output = some ((ConvertRGBA s c).state.mRGBA s.mLatestRGBA) ∧
    (ConvertRGBA s c).state.mLatestRGBA = (s.mLatestRGBA + 1) % NUM_RINGBUFFERS := by
  unfold ConvertRGBA
  rcases he : ensureRGBA s c.cudaMalloc with ⟨ok, rgba, tr⟩
  rw [he] at ha
  simp only at ha
  subst ha
  simp [hin, hout, hk]

theorem ConvertRGBA_index (s : gstVideo) (c : ConvertArgs) :
    ((ConvertRGBA s c).ret = true →
      (ConvertRGBA s c).state.mLatestRGBA = (s.mLatestRGBA + 1) % NUM_RINGBUFFERS) ∧
    ((ConvertRGBA s c).ret = false → (ConvertRGBA s c).state.mLatestRGBA = s.mLatestRGBA) := by
  unfold ConvertRGBA
  split
  · simp
  · split
    · simp
    · split <;> simp

theorem Capture_mLatestRGBA (s : gstVideo) (c : CaptureArgs) :
    (Capture s c).state.mLatestRGBA = s.mLatestRGBA ∧ (Capture s c).state.mRGBA = s.mRGBA := by
  unfold Capture
  by_cases hw : c.wait_result = false <;> by_cases hv : s.mLatestReceived = true <;>
    simp [hw, hv]

theorem checkBuffer_mLatestRGBA (s : gstVideo) (p : Pulled) :
    (checkBuffer s p).state.mLatestRGBA = s.mLatestRGBA ∧
    (checkBuffer s p).state.mRGBA = s.mRGBA := by
  unfold checkBuffer storeFrame
  dsimp only
  repeat' split
  all_goals simp

theorem conversions_slot (calls : List Call) :
    ∀ (s : gstVideo), s.mLatestRGBA < NUM_RINGBUFFERS →
    ∀ (j : Nat) (a : Nat × Option Ptr), (conversions (run s calls))[j]? = some a →
      a.1 = (s.mLatestRGBA + j) % NUM_RINGBUFFERS := by
  induction calls with
  | nil => intro s _ j a h; simp [run, conversions] at h
  | cons call cs ih =>
    intro s hs j a h
    cases call with
    | Capture c =>
      have h2 : (conversions (run (Capture s c).state cs))[j]? = some a := by
        simpa [run, perform, conversions, Outcome.state] using h
      have := ih (Capture s c).state (by rw [(Capture_mLatestRGBA s c).1]; exact hs) j a h2
      rw [(Capture_mLatestRGBA s c).1] at this
      exact this
    | checkBuffer p =>
      have h2 : (conversions (run (checkBuffer s p).state cs))[j]? = some a := by
        simpa [run, perform, conversions, Outcome.state] using h
      have := ih (checkBuffer s p).state
        (by rw [(checkBuffer_mLatestRGBA s p).1]; exact hs) j a h2
      rw [(checkBuffer_mLatestRGBA s p).1] at this
      exact this
    | ConvertRGBA c =>
      simp only [run, perform, conversions, Outcome.state] at h
      by_cases hr : (ConvertRGBA s c).ret = true
      · have hidx := (ConvertRGBA_index s c).1 hr
        rw [if_pos hr] at h
        cases j with
        | zero =>
          simp only [List.getElem?_cons_zero, Option.some.injEq] at h
          subst h
          simp only [NUM_RINGBUFFERS] at hs ⊢
          omega
        | succ j =>
          simp only [List.getElem?_cons_succ] at h
          have := ih (ConvertRGBA s c).state
            (by rw [hidx]; exact Nat.mod_lt _ (by decide)) j a h
          rw [hidx] at this
          simp only [NUM_RINGBUFFERS] at this hs ⊢
          omega
      · rw [if_neg hr] at h
        have hf : (ConvertRGBA s c).ret = false := by simpa using hr
        have hidx := (ConvertRGBA_index s c).2 hf
        have := ih (ConvertRGBA s c).state (by rw [hidx]; exact hs) j a h
        rw [hidx] at this
        exact this

theorem ConvertRGBA_of_pool (s : gstVideo) (c : ConvertArgs) (h : s.mRGBA 0 ≠ 0) :
    (ConvertRGBA s c).state.mRGBA = s.mRGBA ∧
    ((ConvertRGBA s c).ret = true → (ConvertRGBA s c).output = some (s.mRGBA s.mLatestRGBA)) := by
  unfold ConvertRGBA
  have he : ensureRGBA s c.cudaMalloc = (true, s.mRGBA, []) := by
    simp [ensureRGBA, h]
  rw [he]
  by_cases h0 : c.input = 0 ∨ c.output = false <;> by_cases hk : c.kernel = false <;>
    simp [h0, hk]

theorem perform_keeps_mRGBA (s : gstVideo) (call : Call) (h : s.mRGBA 0 ≠ 0) :
    (perform s call).state.mRGBA = s.mRGBA := by
  cases call with
  | Capture c => exact (Capture_mLatestRGBA s c).2
  | ConvertRGBA c => exact (ConvertRGBA_of_pool s c h).1
  | checkBuffer p => exact (checkBuffer_mLatestRGBA s p).2

theorem conversions_pointer (calls : List Call) :
    ∀ (s : gstVideo), s.mLatestRGBA < NUM_RINGBUFFERS → s.mRGBA 0 ≠ 0 →
    ∀ (j : Nat) (a : Nat × Option Ptr), (conversions (run s calls))[j]? = some a →
      a.2 = some (s.mRGBA ((s.mLatestRGBA + j) % NUM_RINGBUFFERS)) := by
  induction calls with
  | nil => intro s _ _ j a h; simp [run, conversions] at h
  | cons call cs ih =>
    intro s hs hp j a h
    have hkeep := perform_keeps_mRGBA s call hp
    cases call with
    | Capture c =>
      have h2 : (conversions (run (Capture s c).state cs))[j]? = some a := by
        simpa [run, perform, conversions, Outcome.state] using h
      simp only [perform, Outcome.state] at hkeep
      have := ih (Capture s c).state (by rw [(Capture_mLatestRGBA s c).1]; exact hs)
        (by rw [hkeep]; exact hp) j a h2
      rw [(Capture_mLatestRGBA s c).1, hkeep] at this
      exact this
    | checkBuffer p =>
      have h2 : (conversions (run (checkBuffer s p).state cs))[j]? = some a := by
        simpa [run, perform, conversions, Outcome.state] using h
      simp only [perform, Outcome.state] at hkeep
      have := ih (checkBuffer s p).state
        (by rw [(checkBuffer_mLatestRGBA s p).1]; exact hs) (by rw [hkeep]; exact hp) j a h2
      rw [(checkBuffer_mLatestRGBA s p).1, hkeep] at this
      exact this
    | ConvertRGBA c =>
      simp only [perform, Outcome.state] at hkeep
      simp only [run, perform, conversions, Outcome.state] at h
      by_cases hr : (ConvertRGBA s c).ret = true
      · have hidx := (ConvertRGBA_index s c).1 hr
        have hout := (ConvertRGBA_of_pool s c hp).2 hr
        rw [if_pos hr] at h
        cases j with
        | zero =>
          simp only [List.getElem?_cons_zero, Option.some.injEq] at h
          subst h
          simp only [hout, Nat.add_zero]
          rw [Nat.mod_eq_of_lt hs]
        | succ j =>
          simp only [List.getElem?_cons_succ] at h
          have := ih (ConvertRGBA s c).state
            (by rw [hidx]; exact Nat.mod_lt _ (by decide)) (by rw [hkeep]; exact hp) j a h
          rw [hidx, hkeep] at this
          rw [this]
          congr 2
          simp only [NUM_RINGBUFFERS]
          omega
      · rw [if_neg hr] at h
        have hf : (ConvertRGBA s c).ret = false := by simpa using hr
        have hidx := (ConvertRGBA_index s c).2 hf
        have := ih (ConvertRGBA s c).state (by rw [hidx]; exact hs)
          (by rw [hkeep]; exact hp) j a h
        rw [hidx, hkeep] at this
        exact this

/-- Claim C9: a `ConvertRGBA` call with non-null arguments whose allocation and kernel succeed,
made at staging index `i < 16`, returns success, stores staging slot `i` in `*output`, sets
the staging index to `(i+1) mod 16` and leaves the latest ring index and the delivered flag of
the frame pool alone; a call that returns failure leaves the staging index alone.  In any run
of calls the `j`-th and the `(j+16)`-th successful conversion use the same slot, and two
successful conversions fewer than 16 apart use different slots; once the pool is allocated the
pointer returned by the `j`-th successful conversion is the one in slot `(i+j) mod 16`. -/
theorem ConvertRGBA_round_robin :
    (∀ (s : gstVideo) (c : ConvertArgs), s.mLatestRGBA < NUM_RINGBUFFERS → c.input ≠ 0 →
      c.output = true → allocSucceeds s c → c.kernel = true →
      (ConvertRGBA s c).ret = true ∧
      (ConvertRGBA s c).output = some ((ConvertRGBA s c).state.mRGBA s.mLatestRGBA) ∧
      (ConvertRGBA s c).state.mLatestRGBA = (s.mLatestRGBA + 1) % 16 ∧
      (ConvertRGBA s c).state.mLatestRingbuffer = s.mLatestRingbuffer ∧
      (ConvertRGBA s c).state.mLatestReceived = s.mLatestReceived) ∧
    (∀ (s : gstVideo) (c : ConvertArgs), (ConvertRGBA s c).ret = false →
      (ConvertRGBA s c).state.mLatestRGBA = s.mLatestRGBA) ∧
    (∀ (s : gstVideo) (calls : List Call), s.mLatestRGBA < NUM_RINGBUFFERS →
      ∀ (j : Nat) (a b : Nat × Option Ptr),
        (conversions (run s calls))[j]? = some a →
        (conversions (run s calls))[j + 16]? = some b → a.1 = b.1) ∧
    (∀ (s : gstVideo) (calls : List Call), s.mLatestRGBA < NUM_RINGBUFFERS →
      ∀ (j k : Nat) (a b : Nat × Option Ptr), j < k → k < j + 16 →
        (conversions (run s calls))[j]? = some a →
        (conversions (run s calls))[k]? = some b → a.1 ≠ b.1) ∧
    (∀ (s : gstVideo) (calls : List Call), s.mLatestRGBA < NUM_RINGBUFFERS → s.mRGBA 0 ≠ 0 →
      ∀ (j : Nat) (a : Nat × Option Ptr), (conversions (run s calls))[j]? = some a →
        a.2 = some (s.mRGBA ((s.mLatestRGBA + j) % 16))) := by
  refine ⟨?_, ?_, ?_, ?_, ?_⟩
  · intro s c _ hin hout ha hk
    obtain ⟨h1, h2, h3⟩ := ConvertRGBA_of_ok s c hin hout (ensureRGBA_ok s c ha) hk
    exact ⟨h1, h2, h3, (ConvertRGBA_received s c).2, (ConvertRGBA_received s c).1⟩
  · intro s c h
    exact (ConvertRGBA_index s c).2 h
  · intro s calls hs j a b ha hb
    have h1 := conversions_slot calls s hs j a ha
    have h2 := conversions_slot calls s hs (j + 16) b hb
    rw [h1, h2]
    simp only [NUM_RINGBUFFERS]
    omega
  · intro s calls hs j k a b hjk hk ha hb
    have h1 := conversions_slot calls s hs j a ha
    have h2 := conversions_slot calls s hs k b hb
    rw [h1, h2]
    simp only [NUM_RINGBUFFERS]
    omega
  · intro s calls hs hp j a ha
    exact conversions_pointer calls s hs hp j a ha

/-- Witness of claim C9: on the staged object (index 3, pool allocated) a conversion whose
kernel succeeds returns slot 3 and moves the index to 4. -/
theorem ConvertRGBA_round_robin_witness :
    stagedNV12.mLatestRGBA < NUM_RINGBUFFERS ∧ convertOk.input ≠ 0 ∧
    convertOk.output = true ∧ allocSucceeds stagedNV12 convertOk ∧ convertOk.kernel = true ∧
    (ConvertRGBA stagedNV12 convertOk).ret = true ∧
    (ConvertRGBA stagedNV12 convertOk).output = some 3003 ∧
    (ConvertRGBA stagedNV12 convertOk).state.mLatestRGBA = 4 :=
  ⟨by decide, by decide, rfl, Or.inl (by decide), rfl,
    (ConvertRGBA_round_robin.1 stagedNV12 convertOk (by decide) (by decide) rfl
      (Or.inl (by decide)) rfl).1,
    (ConvertRGBA_round_robin.1 stagedNV12 convertOk (by decide) (by decide) rfl
      (Or.inl (by decide)) rfl).2.1,
    (ConvertRGBA_round_robin.1 stagedNV12 convertOk (by decide) (by decide) rfl
      (Or.inl (by decide)) rfl).2.2.1⟩

/-! ## ConvertRGBA: a failing allocation -/

theorem allocRGBA_fail (malloc : Nat → Option Ptr) (size : Nat) (k n : Nat) (a : Nat → Ptr)
    (tr : List Event) (i : Nat) (h1 : n ≤ i) (h2 : i < n + k) (hf : malloc i = none) :
    (allocRGBA malloc size k n a tr).1 = false := by
  induction k generalizing n a tr with
  | zero => omega
  | succ k ih =>
    unfold allocRGBA
    cases hm : malloc n with
    | none => rfl
    | some q =>
      have hne : i ≠ n := by
        intro h
        rw [h, hm] at hf
        exact Option.noConfusion hf
      exact ih (n + 1) _ _ (by omega) (by omega)

theorem allocRGBA_no_kernel (malloc : Nat → Option Ptr) (size : Nat) (k n : Nat)
    (a : Nat → Ptr) (tr : List Event) (h : ∀ e ∈ tr, e.isKernel = false) :
    ∀ e ∈ (allocRGBA malloc size k n a tr).2.2, e.isKernel = false := by
  induction k generalizing n a tr with
  | zero => exact h
  | succ k ih =>
    have h2 : ∀ e ∈ tr ++ [Event.cudaMalloc n size], e.isKernel = false := by
      intro e he
      rcases List.mem_append.mp he with he | he
      · exact h e he
      · rw [List.mem_singleton.mp he]; rfl
    unfold allocRGBA
    cases hm : malloc n with
    | none => exact h2
    | some q => exact ih (n + 1) _ _ h2

theorem ensureRGBA_pool (s : gstVideo) (malloc : Nat → Option Ptr) (h : s.mRGBA 0 ≠ 0) :
    ensureRGBA s malloc = (true, s.mRGBA, []) := by
  simp [ensureRGBA, h]

/-- The call in which the allocation fails: when `cudaMalloc` fails for some staging slot
during a `ConvertRGBA` call that allocates, the call returns failure, calls no conversion
kernel, stores nothing in `*output` and leaves the staging index alone. -/
theorem ConvertRGBA_failing_call (s : gstVideo) (c : ConvertArgs) (n : Nat)
    (hin : c.input ≠ 0) (hout : c.output = true) (hnull : s.mRGBA 0 = 0)
    (hn : n < NUM_RINGBUFFERS) (hfail : c.cudaMalloc n = none) :
    (ConvertRGBA s c).ret = false ∧ (ConvertRGBA s c).output = none ∧
    (∀ e ∈ (ConvertRGBA s c).trace, e.isKernel = false) ∧
    (ConvertRGBA s c).state.mLatestRGBA = s.mLatestRGBA := by
  have hf : (ensureRGBA s c.cudaMalloc).1 = false := by
    simp only [ensureRGBA, hnull, if_true]
    exact allocRGBA_fail _ _ _ _ _ _ n (Nat.zero_le n) (by simpa using hn) hfail
  have hnk : ∀ e ∈ (ensureRGBA s c.cudaMalloc).2.2, e.isKernel = false := by
    simp only [ensureRGBA, hnull, if_true]
    exact allocRGBA_no_kernel _ _ _ _ _ _ (by simp)
  unfold ConvertRGBA
  rcases he : ensureRGBA s c.cudaMalloc with ⟨ok, rgba, tr⟩
  rw [he] at hf hnk
  simp only at hf hnk
  subst hf
  simpa [hin, hout] using hnk

/-- Claim C7, evaluated on the code.  On the object that holds frame A (2 by 2, so 64 bytes
per staging slot) `cudaMalloc` fails for slot 1: the call returns failure and leaves slot 0
set and slot 1 `NULL`.  The next call finds `mRGBA[0]` set, allocates nothing and returns
success with slot 0.  The call after it hands slot 1, which was never allocated, to the kernel
as destination and, the kernel reporting success, stores that `NULL` slot in `*output` and
returns success.  When `cudaMalloc` fails for slot 0 instead, the next call runs the sixteen
allocations again and returns success.  In `checkBuffer`, when `cudaAllocMapped` fails for
slot 0 the frame is still copied (into slot 1), and when it fails for slot 1 the frame is
copied to the `NULL` pointer of that slot. -/
theorem ConvertRGBA_succeeds_after_failed_allocation :
    (ConvertRGBA afterA convertFailAt1).ret = false ∧
    (ConvertRGBA afterA convertFailAt1).trace = [Event.cudaMalloc 0 64, Event.cudaMalloc 1 64] ∧
    afterFailAt1.mRGBA 0 = 3000 ∧ afterFailAt1.mRGBA 1 = 0 ∧
    (ConvertRGBA afterFailAt1 convertOk).ret = true ∧
    (ConvertRGBA afterFailAt1 convertOk).output = some 3000 ∧
    (ConvertRGBA afterFailAt1 convertOk).trace = [Event.cudaRGBToRGBAf 5000 3000 2 2] ∧
    afterFailAt1Ok.mLatestRGBA = 1 ∧
    (ConvertRGBA afterFailAt1Ok convertOk).trace = [Event.cudaRGBToRGBAf 5000 0 2 2] ∧
    (ConvertRGBA afterFailAt1Ok convertOk).ret = true ∧
    (ConvertRGBA afterFailAt1Ok convertOk).output = some 0 ∧
    (ConvertRGBA afterA convertFailAll).ret = false ∧
    (ConvertRGBA afterA convertFailAll).trace = [Event.cudaMalloc 0 64] ∧
    (ConvertRGBA afterFailAll convertOk).ret = true ∧
    ((ConvertRGBA afterFailAll convertOk).trace.filter Event.isAlloc).length = 16 ∧
    (checkBuffer (gstVideo.created 1) frameAllocFail0).state.mRingBufferCPU 0 = 0 ∧
    Event.memcpy 1001 [1, 2, 3, 4, 5, 6, 7, 8, 9, 10, 11, 12] ∈
      (checkBuffer (gstVideo.created 1) frameAllocFail0).trace ∧
    (checkBuffer (gstVideo.created 1) frameAllocFail1).state.mRingBufferCPU 1 = 0 ∧
    Event.memcpy 0 [1, 2, 3, 4, 5, 6, 7, 8, 9, 10, 11, 12] ∈
      (checkBuffer (gstVideo.created 1) frameAllocFail1).trace := by
  refine ⟨rfl, rfl, rfl, rfl, rfl, rfl, rfl, rfl, rfl, rfl, rfl, rfl, rfl, rfl, ?_, rfl, ?_,
    rfl, ?_⟩ <;> decide

/-! ## Allocation of the two pools -/

theorem run_invariant (P : gstVideo → Prop)
    (hP : ∀ (s : gstVideo) (call : Call), P s → P (perform s call).state)
    {s : gstVideo} {calls : List Call} (h : P s) {pre : gstVideo} {o : Outcome}
    (hm : (pre, o) ∈ run s calls) : P pre := by
  induction calls generalizing s with
  | nil => simp [run] at hm
  | cons c cs ih =>
    simp only [run, List.mem_cons, Prod.mk.injEq] at hm
    rcases hm with ⟨h1, _⟩ | hm
    · rw [h1]; exact h
    · exact ih (hP s c h) hm

theorem allocRing_trace (alloc : Nat → Option (Ptr × Ptr)) (size : Nat) (k n : Nat)
    (cpu gpu : Nat → Ptr) (tr : List Event) :
    (allocRing alloc size k n cpu gpu tr).2.2 =
      tr ++ (List.range' n k).map (fun i => Event.cudaAllocMapped i size) := by
  induction k generalizing n cpu gpu tr with
  | zero => simp [allocRing]
  | succ k ih =>
    unfold allocRing
    cases hm : alloc n with
    | none => simp [ih, List.range'_succ]
    | some q =>
      obtain ⟨c, g⟩ := q
      simp [ih, List.range'_succ]

theorem allocRing_cpu_lt (alloc : Nat → Option (Ptr × Ptr)) (size : Nat) (k n : Nat)
    (cpu gpu : Nat → Ptr) (tr : List Event) (i : Nat) (hi : i < n) :
    (allocRing alloc size k n cpu gpu tr).1 i = cpu i := by
  induction k generalizing n cpu gpu tr with
  | zero => simp [allocRing]
  | succ k ih =>
    unfold allocRing
    cases hm : alloc n with
    | none => exact ih (n + 1) _ _ _ (by omega)
    | some q =>
      obtain ⟨c, g⟩ := q
      simp only
      rw [ih (n + 1) _ _ _ (by omega)]
      simp [setSlot, Nat.ne_of_lt hi]

theorem allocRGBA_all (malloc : Nat → Option Ptr) (size : Nat) (k n : Nat) (a : Nat → Ptr)
    (tr : List Event) (h : ∀ i, n ≤ i → i < n + k → ∃ q, malloc i = some q) :
    (allocRGBA malloc size k n a tr).1 = true ∧
    (allocRGBA malloc size k n a tr).2.2 =
      tr ++ (List.range' n k).map (fun i => Event.cudaMalloc i size) ∧
    ∀ i, i < n → (allocRGBA malloc size k n a tr).2.1 i = a i := by
  induction k generalizing n a tr with
  | zero => simp [allocRGBA]
  | succ k ih =>
    obtain ⟨q, hq⟩ := h n (le_refl n) (by omega)
    unfold allocRGBA
    rw [hq]
    obtain ⟨h1, h2, h3⟩ := ih (n + 1) (setSlot a n q) (tr ++ [Event.cudaMalloc n size])
      (fun i hi1 hi2 => h i (by omega) (by omega))
    refine ⟨h1, ?_, ?_⟩
    · simp [h2, List.range'_succ]
    · intro i hi
      simp only
      rw [h3 i (by omega)]
      simp [setSlot, Nat.ne_of_lt hi]

theorem allocRGBA_trace_forall (P : Event → Prop) (hP : ∀ n size, P (Event.cudaMalloc n size))
    (malloc : Nat → Option Ptr) (size : Nat) (k n : Nat) (a : Nat → Ptr) (tr : List Event)
    (h : ∀ e ∈ tr, P e) : ∀ e ∈ (allocRGBA malloc size k n a tr).2.2, P e := by
  induction k generalizing n a tr with
  | zero => exact h
  | succ k ih =>
    have h2 : ∀ e ∈ tr ++ [Event.cudaMalloc n size], P e := by
      intro e he
      rcases List.mem_append.mp he with he | he
      · exact h e he
      · rw [List.mem_singleton.mp he]; exact hP n size
    unfold allocRGBA
    cases hm : malloc n with
    | none => exact h2
    | some q => exact ih (n + 1) _ _ h2

theorem ConvertRGBA_trace_cases (s : gstVideo) (c : ConvertArgs) :
    (ConvertRGBA s c).state.mRingBufferCPU = s.mRingBufferCPU ∧
    (ConvertRGBA s c).state.mRGBA 0 = (if c.input = 0 ∨ c.output = false then s.mRGBA 0
      else (ensureRGBA s c.cudaMalloc).2.1 0) ∧
    ((ConvertRGBA s c).trace = [] ∨
      (ConvertRGBA s c).trace = (ensureRGBA s c.cudaMalloc).2.2 ∨
      (ConvertRGBA s c).trace = (ensureRGBA s c.cudaMalloc).2.2 ++
        [kernelCall s c.input ((ensureRGBA s c.cudaMalloc).2.1 s.mLatestRGBA)]) := by
  unfold ConvertRGBA
  by_cases h0 : c.input = 0 ∨ c.output = false
  · simp [h0]
  · rcases he : ensureRGBA s c.cudaMalloc with ⟨ok, rgba, tr⟩
    cases ok <;> by_cases hk : c.kernel = false <;> simp [h0, hk]

theorem checkBuffer_trace_cases (s : gstVideo) (p : Pulled) :
    (checkBuffer s p).state.mRGBA = s.mRGBA ∧
    (((checkBuffer s p).state.mRingBufferCPU = s.mRingBufferCPU ∧
        ((checkBuffer s p).trace = [] ∨ (checkBuffer s p).trace = [Event.gst_sample_unref])) ∨
      ∃ bytes,
        (checkBuffer s p).state.mRingBufferCPU =
          (ensureRing s p.cudaAllocMapped (p.mapSize % UINT32_RANGE)).1 ∧
        (checkBuffer s p).trace =
          (ensureRing s p.cudaAllocMapped (p.mapSize % UINT32_RANGE)).2.2 ++
          [Event.memcpy ((ensureRing s p.cudaAllocMapped (p.mapSize % UINT32_RANGE)).1
              ((s.mLatestRingbuffer + 1) % NUM_RINGBUFFERS)) bytes,
            Event.gst_buffer_unmap, Event.gst_sample_unref]) := by
  unfold checkBuffer storeFrame
  dsimp only
  repeat' split
  all_goals simp

theorem ensureRing_pool (s : gstVideo) (alloc : Nat → Option (Ptr × Ptr)) (size : Nat)
    (h : s.mRingBufferCPU 0 ≠ 0) :
    ensureRing s alloc size = (s.mRingBufferCPU, s.mRingBufferGPU, []) := by
  simp [ensureRing, h]

theorem ensureRing_trace_forall (P : Event → Prop)
    (hP : ∀ n size, P (Event.cudaAllocMapped n size)) (s : gstVideo)
    (alloc : Nat → Option (Ptr × Ptr)) (size : Nat) :
    ∀ e ∈ (ensureRing s alloc size).2.2, P e := by
  unfold ensureRing
  split
  · rw [allocRing_trace]
    intro e he
    simp only [List.nil_append, List.mem_map] at he
    obtain ⟨i, _, hi⟩ := he
    rw [← hi]
    exact hP i size
  · simp

theorem ensureRGBA_trace_forall (P : Event → Prop) (hP : ∀ n size, P (Event.cudaMalloc n size))
    (s : gstVideo) (malloc : Nat → Option Ptr) : ∀ e ∈ (ensureRGBA s malloc).2.2, P e := by
  unfold ensureRGBA
  split
  · exact allocRGBA_trace_forall P hP _ _ _ _ _ _ (by simp)
  · simp

theorem kernelCall_flags (s : gstVideo) (input dest : Ptr) :
    (kernelCall s input dest).isAllocMapped = false ∧
    (kernelCall s input dest).isMalloc = false := by
  unfold kernelCall
  split <;> exact ⟨rfl, rfl⟩

theorem perform_keeps_ring (s : gstVideo) (call : Call) (h : s.mRingBufferCPU 0 ≠ 0) :
    (perform s call).state.mRingBufferCPU 0 ≠ 0 ∧
    ∀ e ∈ (perform s call).trace, e.isAllocMapped = false := by
  cases call with
  | Capture c =>
    refine ⟨?_, by simp [perform, Outcome.trace]⟩
    simp only [perform, Outcome.state]
    unfold Capture
    by_cases hw : c.wait_result = false <;> by_cases hv : s.mLatestReceived = true <;>
      simp [hw, hv, h]
  | ConvertRGBA c =>
    obtain ⟨h1, _, h3⟩ := ConvertRGBA_trace_cases s c
    simp only [perform, Outcome.state, Outcome.trace]
    refine ⟨by rw [h1]; exact h, ?_⟩
    have ht := ensureRGBA_trace_forall (fun e => e.isAllocMapped = false)
      (fun _ _ => rfl) s c.cudaMalloc
    rcases h3 with h3 | h3 | h3 <;> rw [h3]
    · simp
    · exact ht
    · intro e he
      rcases List.mem_append.mp he with he | he
      · exact ht e he
      · rw [List.mem_singleton.mp he]; exact (kernelCall_flags _ _ _).1
  | checkBuffer p =>
    obtain ⟨_, h2⟩ := checkBuffer_trace_cases s p
    simp only [perform, Outcome.state, Outcome.trace]
    rcases h2 with ⟨h2, h3⟩ | ⟨bytes, h2, h3⟩
    · refine ⟨by rw [h2]; exact h, ?_⟩
      rcases h3 with h3 | h3 <;> rw [h3] <;> simp [Event.isAllocMapped]
    · rw [ensureRing_pool s _ _ h] at h2 h3
      refine ⟨by rw [h2]; exact h, ?_⟩
      rw [h3]
      simp [Event.isAllocMapped]

theorem perform_keeps_staging (s : gstVideo) (call : Call) (h : s.mRGBA 0 ≠ 0) :
    (perform s call).state.mRGBA 0 ≠ 0 ∧
    ∀ e ∈ (perform s call).trace, e.isMalloc = false := by
  cases call with
  | Capture c =>
    refine ⟨?_, by simp [perform, Outcome.trace]⟩
    simp only [perform, Outcome.state]
    rw [(Capture_mLatestRGBA s c).2]
    exact h
  | ConvertRGBA c =>
    obtain ⟨_, h2, h3⟩ := ConvertRGBA_trace_cases s c
    simp only [perform, Outcome.state, Outcome.trace]
    rw [ensureRGBA_pool s _ h] at h2 h3
    refine ⟨?_, ?_⟩
    · rw [h2]; split <;> exact h
    · rcases h3 with h3 | h3 | h3 <;> rw [h3]
      · simp
      · simp
      · intro e he
        simp only [List.nil_append, List.mem_singleton] at he
        rw [he]; exact (kernelCall_flags _ _ _).2
  | checkBuffer p =>
    obtain ⟨h1, h2⟩ := checkBuffer_trace_cases s p
    simp only [perform, Outcome.state, Outcome.trace]
    refine ⟨by rw [h1]; exact h, ?_⟩
    rcases h2 with ⟨_, h3⟩ | ⟨bytes, _, h3⟩
    · rcases h3 with h3 | h3 <;> rw [h3] <;> simp [Event.isMalloc]
    · rw [h3]
      intro e he
      rcases List.mem_append.mp he with he | he
      · exact ensureRing_trace_forall (fun e => e.isMalloc = false) (fun _ _ => rfl) _ _ _ e he
      · simp only [List.mem_cons, List.mem_singleton, List.not_mem_nil, or_false] at he
        rcases he with he | he | he <;> rw [he] <;> rfl

theorem filter_map_append_of_flags (f : Nat → Event) (q : Event → Bool) (l : List Nat)
    (rest : List Event) (hf : ∀ i, q (f i) = true) (hr : ∀ e ∈ rest, q e = false) :
    (l.map f ++ rest).filter q = l.map f := by
  rw [List.filter_append]
  have h1 : (l.map f).filter q = l.map f := by
    rw [List.filter_eq_self]
    intro a ha
    obtain ⟨i, _, hi⟩ := List.mem_map.mp ha
    rw [← hi]; exact hf i
  have h2 : rest.filter q = [] := by
    rw [List.filter_eq_nil_iff]
    intro a ha
    rw [hr a ha]
    exact Bool.false_ne_true
  rw [h1, h2, List.append_nil]

theorem filter_nil_of_flags (q : Event → Bool) (l : List Event) (h : ∀ e ∈ l, q e = false) :
    l.filter q = [] := by
  rw [List.filter_eq_nil_iff]
  intro a ha
  rw [h a ha]
  exact Bool.false_ne_true

theorem depthOf_defined (gstSize : Nat) (W H : Int) (hW : 1 ≤ W) (hH : 1 ≤ H)
    (hWH : W * H < 2 ^ 31) : ∃ d, depthOf gstSize W H = some d := by
  have hpos : 0 < W * H := Int.mul_pos (by omega) (by omega)
  have hlt : W * H < (UINT32_RANGE : Int) := by
    have : ((UINT32_RANGE : Nat) : Int) = 2 ^ 32 := by norm_num [UINT32_RANGE]
    rw [this]
    omega
  have hne : toUInt32 (W * H) ≠ 0 := by
    unfold toUInt32
    rw [Int.emod_eq_of_lt (le_of_lt hpos) hlt]
    intro h0
    have := Int.toNat_eq_zero.mp h0
    omega
  exact ⟨_, by unfold depthOf; rw [if_neg hne]⟩

theorem first_frame_allocates (sink : Ptr) (p : Pulled) (W H : Int) (data : List Nat)
    (hs : sink ≠ 0) (hv : p.validFrame W H data) (ha : p.allocatesAll) :
    (checkBuffer (gstVideo.created sink) p).trapped = false ∧
    (checkBuffer (gstVideo.created sink) p).trace.filter Event.isAllocMapped =
      (List.range 16).map (fun n => Event.cudaAllocMapped n p.mapSize) ∧
    (checkBuffer (gstVideo.created sink) p).state.mRingBufferCPU 0 ≠ 0 := by
  obtain ⟨hr, hw, hh, hW, _, hH, _, hd, _, hsz, hWH⟩ := hv
  have hmod : p.mapSize % UINT32_RANGE = p.mapSize := Nat.mod_eq_of_lt hsz
  obtain ⟨depth, hdepth⟩ := depthOf_defined p.mapSize W H hW hH hWH
  have hens : ensureRing (gstVideo.created sink) p.cudaAllocMapped p.mapSize =
      allocRing p.cudaAllocMapped p.mapSize 16 0 (fun _ => 0) (fun _ => 0) [] := by
    simp [ensureRing, gstVideo.created, gstVideo.construct, NUM_RINGBUFFERS]
  rw [checkBuffer_eq_storeFrame (gstVideo.created sink) p data W H
    (by simpa [gstVideo.created] using hs) hr hd hw hh hW hH]
  simp only [storeFrame, hmod, hdepth, hens]
  refine ⟨trivial, ?_, ?_⟩
  · simp only [allocRing_trace, List.nil_append, List.range_eq_range']
    exact filter_map_append_of_flags _ _ _ _ (fun _ => rfl)
      (by intro e he
          simp only [List.mem_cons, List.mem_singleton, List.not_mem_nil, or_false] at he
          rcases he with he | he | he <;> rw [he] <;> rfl)
  · obtain ⟨⟨c, g⟩, hc, hne⟩ := ha 0 (by decide)
    rw [Option.mem_def] at hc
    show (allocRing p.cudaAllocMapped p.mapSize 16 0 (fun _ => 0) (fun _ => 0) []).1 0 ≠ 0
    unfold allocRing
    rw [hc]
    simp only
    rw [allocRing_cpu_lt _ _ _ _ _ _ _ 0 (by decide)]
    simpa [setSlot] using hne

theorem first_convert_allocates (s : gstVideo) (c : ConvertArgs) (hnull : s.mRGBA 0 = 0)
    (hin : c.input ≠ 0) (hout : c.output = true) (ha : c.allocatesAll) :
    (ConvertRGBA s c).trace.filter Event.isMalloc =
      (List.range 16).map
        (fun n => Event.cudaMalloc n ((s.mWidth * s.mHeight) % UINT32_RANGE * SIZEOF_FLOAT4)) ∧
    (ConvertRGBA s c).state.mRGBA 0 ≠ 0 := by
  have hall := allocRGBA_all c.cudaMalloc
    ((s.mWidth * s.mHeight) % UINT32_RANGE * SIZEOF_FLOAT4) 16 0 s.mRGBA []
    (fun i _ hi => by
      obtain ⟨q, hq, _⟩ := ha i (by simpa [NUM_RINGBUFFERS] using hi)
      exact ⟨q, Option.mem_def.mp hq⟩)
  have hens : ensureRGBA s c.cudaMalloc =
      allocRGBA c.cudaMalloc ((s.mWidth * s.mHeight) % UINT32_RANGE * SIZEOF_FLOAT4)
        16 0 s.mRGBA [] := by
    simp [ensureRGBA, hnull, NUM_RINGBUFFERS]
  have hslot : (allocRGBA c.cudaMalloc ((s.mWidth * s.mHeight) % UINT32_RANGE * SIZEOF_FLOAT4)
      16 0 s.mRGBA []).2.1 0 ≠ 0 := by
    obtain ⟨q, hq, hne⟩ := ha 0 (by decide)
    rw [Option.mem_def] at hq
    unfold allocRGBA
    rw [hq]
    simp only
    have h15 := allocRGBA_all c.cudaMalloc
      ((s.mWidth * s.mHeight) % UINT32_RANGE * SIZEOF_FLOAT4) 15 1 (setSlot s.mRGBA 0 q)
      ([] ++ [Event.cudaMalloc 0 ((s.mWidth * s.mHeight) % UINT32_RANGE * SIZEOF_FLOAT4)])
      (fun i _ hi => by
        obtain ⟨q2, hq2, _⟩ := ha i (by simp only [NUM_RINGBUFFERS]; omega)
        exact ⟨q2, Option.mem_def.mp hq2⟩)
    rw [h15.2.2 0 (by decide)]
    simpa [setSlot] using hne
  obtain ⟨_, h2, h3⟩ := ConvertRGBA_trace_cases s c
  have hn0 : ¬ (c.input = 0 ∨ c.output = false) := by simp [hin, hout]
  rw [if_neg hn0, hens] at h2
  refine ⟨?_, by rw [h2]; exact hslot⟩
  have hret : (ConvertRGBA s c).trace =
      (List.range' 0 16).map
        (fun n => Event.cudaMalloc n ((s.mWidth * s.mHeight) % UINT32_RANGE * SIZEOF_FLOAT4)) ++
      [kernelCall s c.input ((ensureRGBA s c.cudaMalloc).2.1 s.mLatestRGBA)] := by
    unfold ConvertRGBA
    rcases he : ensureRGBA s c.cudaMalloc with ⟨ok, rgba, tr⟩
    rw [hens] at he
    rw [he] at hall
    simp only [List.nil_append] at hall
    obtain ⟨hok, htr, _⟩ := hall
    subst hok
    subst htr
    by_cases hk : c.kernel = false <;> simp [hn0, hk]
  rw [hret, List.range_eq_range']
  exact filter_map_append_of_flags _ _ _ _ (fun _ => rfl)
    (by intro e he
        rw [List.mem_singleton.mp he]
        exact (kernelCall_flags _ _ _).2)

/-- Counterexample to claim C8 as stated.  Frame pool: of two valid frames of the same size
from the created object, the first with `cudaAllocMapped` failing for slot 0, the second runs
the sixteen allocations again; and on a readable 65536 by 65536 buffer, whose dimensions are
positive and whose `int` pixel count wraps to zero, `checkBuffer` stops in the division and
allocates nothing.  Staging pool: a first `ConvertRGBA` call with non-null arguments whose
`cudaMalloc` fails for slot 0 allocates nothing, and the sixteen slots are allocated by the
second call; and on an object whose stored width and height are 65536 each the request is for
0 bytes per slot, the 32-bit product of the two having wrapped. -/
theorem pools_not_allocated_once :
    frameAllocFail0.validFrame 2 2 [1, 2, 3, 4, 5, 6, 7, 8, 9, 10, 11, 12] ∧
    frameA.validFrame 2 2 [1, 2, 3, 4, 5, 6, 7, 8, 9, 10, 11, 12] ∧
    frameAllocFail0.mapSize = frameA.mapSize ∧
    ((checkBuffer (gstVideo.created 1) frameAllocFail0).trace.filter
      Event.isAllocMapped).length = 16 ∧
    (checkBuffer (gstVideo.created 1) frameAllocFail0).state.mRingBufferCPU 0 = 0 ∧
    (checkBuffer (checkBuffer (gstVideo.created 1) frameAllocFail0).state frameA).trace.filter
      Event.isAllocMapped = (List.range 16).map (fun n => Event.cudaAllocMapped n 12) ∧
    frameOverflow.readable ∧
    frameOverflow.width = some 65536 ∧ frameOverflow.height = some 65536 ∧
    (checkBuffer (gstVideo.created 1) frameOverflow).trapped = true ∧
    (checkBuffer (gstVideo.created 1) frameOverflow).trace = [] ∧
    afterA.mRGBA 0 = 0 ∧ convertFailAll.input ≠ 0 ∧ convertFailAll.output = true ∧
    (ConvertRGBA afterA convertFailAll).trace = [Event.cudaMalloc 0 64] ∧
    afterFailAll.mRGBA 0 = 0 ∧
    (ConvertRGBA afterFailAll convertOk).trace.filter Event.isMalloc =
      (List.range 16).map (fun n => Event.cudaMalloc n 64) ∧
    createdWide.mRGBA 0 = 0 ∧ createdWide.mWidth * createdWide.mHeight * SIZEOF_FLOAT4 ≠ 0 ∧
    (ConvertRGBA createdWide convertOk).trace.filter Event.isMalloc =
      (List.range 16).map (fun n => Event.cudaMalloc n 0) := by
  refine ⟨⟨⟨rfl, rfl, rfl, rfl, rfl, rfl⟩, rfl, rfl, by decide, by decide, by decide,
    by decide, rfl, rfl, by decide, by decide⟩, ⟨⟨rfl, rfl, rfl, rfl, rfl, rfl⟩, rfl, rfl,
    by decide, by decide, by decide, by decide, rfl, rfl, by decide, by decide⟩, rfl, ?_, rfl,
    ?_, ⟨rfl, rfl, rfl, rfl, rfl, rfl⟩, rfl, rfl, rfl, rfl, rfl, ?_, rfl, rfl, rfl, ?_, rfl,
    ?_, ?_⟩ <;> decide

/-- Claim C8, amended: when a valid first frame, whose pixel count is an `int` value, is
ingested from the created object and each of its sixteen `cudaAllocMapped` calls succeeds with
a non-null host pointer, `checkBuffer` returns, the frame pool is allocated during that frame,
one call per slot with the size of that frame, and no later call allocates a frame pool slot
again, whatever frames (of any size) follow.  When a `ConvertRGBA` call with non-null
arguments finds `mRGBA[0]` unset and each of its sixteen `cudaMalloc` calls succeeds with a
non-null pointer, the staging pool is allocated during that call, one `cudaMalloc` per slot of
`mWidth*mHeight*sizeof(float4)` bytes as the code computes them (the product of the two 32-bit
members wraps), and no later call allocates a staging slot again. -/
theorem pools_allocated_once :
    (∀ (sink : Ptr) (p : Pulled) (W H : Int) (data : List Nat) (calls : List Call),
      sink ≠ 0 → p.validFrame W H data → p.allocatesAll →
      (checkBuffer (gstVideo.created sink) p).trapped = false ∧
      (checkBuffer (gstVideo.created sink) p).trace.filter Event.isAllocMapped =
        (List.range 16).map (fun n => Event.cudaAllocMapped n p.mapSize) ∧
      ∀ (pre : gstVideo) (o : Outcome),
        (pre, o) ∈ run (checkBuffer (gstVideo.created sink) p).state calls →
        o.trace.filter Event.isAllocMapped = []) ∧
    (∀ (s : gstVideo) (c : ConvertArgs) (calls : List Call),
      s.mRGBA 0 = 0 → c.input ≠ 0 → c.output = true → c.allocatesAll →
      (ConvertRGBA s c).trace.filter Event.isMalloc =
        (List.range 16).map (fun n =>
          Event.cudaMalloc n ((s.mWidth * s.mHeight) % UINT32_RANGE * SIZEOF_FLOAT4)) ∧
      ∀ (pre : gstVideo) (o : Outcome),
        (pre, o) ∈ run (ConvertRGBA s c).state calls →
        o.trace.filter Event.isMalloc = []) := by
  constructor
  · intro sink p W H data calls hs hv ha
    obtain ⟨h0, h1, h2⟩ := first_frame_allocates sink p W H data hs hv ha
    refine ⟨h0, h1, ?_⟩
    intro pre o hm
    have hpre := run_invariant (fun s => s.mRingBufferCPU 0 ≠ 0)
      (fun s call h => (perform_keeps_ring s call h).1) h2 hm
    obtain ⟨call, _, ho⟩ := run_mem_perform hm
    rw [ho]
    exact filter_nil_of_flags _ _ (perform_keeps_ring pre call hpre).2
  · intro s c calls hnull hin hout ha
    obtain ⟨h1, h2⟩ := first_convert_allocates s c hnull hin hout ha
    refine ⟨h1, ?_⟩
    intro pre o hm
    have hpre := run_invariant (fun s => s.mRGBA 0 ≠ 0)
      (fun s call h => (perform_keeps_staging s call h).1) h2 hm
    obtain ⟨call, _, ho⟩ := run_mem_perform hm
    rw [ho]
    exact filter_nil_of_flags _ _ (perform_keeps_staging pre call hpre).2

/-- Witness of claim C8: frame A allocates the sixteen slots with 12 bytes each, and frame B
and the larger frame that follow allocate nothing; on the object that holds frame A the first
`ConvertRGBA` call allocates the sixteen staging slots of 64 bytes. -/
theorem pools_allocated_once_witness :
    frameA.validFrame 2 2 [1, 2, 3, 4, 5, 6, 7, 8, 9, 10, 11, 12] ∧ frameA.allocatesAll ∧
    (checkBuffer (gstVideo.created 1) frameA).trapped = false ∧
    (checkBuffer (gstVideo.created 1) frameA).trace.filter Event.isAllocMapped =
      (List.range 16).map (fun n => Event.cudaAllocMapped n 12) ∧
    (checkBuffer afterAB frameWide).trace.filter Event.isAllocMapped = [] ∧
    afterA.mRGBA 0 = 0 ∧ convertOk.allocatesAll ∧
    (ConvertRGBA afterA convertOk).trace.filter Event.isMalloc =
      (List.range 16).map (fun n => Event.cudaMalloc n 64) :=
  ⟨by decide, by decide,
    (pools_allocated_once.1 1 frameA 2 2 [1, 2, 3, 4, 5, 6, 7, 8, 9, 10, 11, 12]
      [Call.checkBuffer frameB, Call.checkBuffer frameWide] (by decide) (by decide)
      (by decide)).1,
    (pools_allocated_once.1 1 frameA 2 2 [1, 2, 3, 4, 5, 6, 7, 8, 9, 10, 11, 12]
      [Call.checkBuffer frameB, Call.checkBuffer frameWide] (by decide) (by decide)
      (by decide)).2.1,
    (pools_allocated_once.1 1 frameA 2 2 [1, 2, 3, 4, 5, 6, 7, 8, 9, 10, 11, 12]
      [Call.checkBuffer frameB, Call.checkBuffer frameWide] (by decide) (by decide)
      (by decide)).2.2 afterAB
      (Outcome.checkBuffer (checkBuffer afterAB frameWide))
      (by simp [run, perform, Outcome.state, afterAB, afterA]),
    rfl, by decide,
    (pools_allocated_once.2 afterA convertOk [] rfl (by decide) rfl (by decide)).1⟩

end GstVideo
